import Mathlib

/-!
Shallow embedding of the `cronos-stream` sequencer (Rust, `src/sequencer/src/`)
used to settle the frozen claims about its specification.

Modelling conventions:
* `U256` values are `Nat` kept below `2^256`; the wrapping `+` of the Rust
  `U256` (release-mode semantics of `alloy`/`ruint`) is `(a + b) % 2^256`.
* `B256` (32-byte hashes) and `Address` (20-byte) are `Nat`s below `2^256`
  resp. `2^160`; byte strings are `List Nat` with entries below 256.
* `keccak256` is an uninterpreted hash passed explicitly as a function
  parameter `H : List Nat → List Nat` where byte-level structure is at stake
  (`crypto.rs`), and signature recovery / sequencer signing are oracle fields
  of an `Env` record in the service layer (`service.rs`), since secp256k1 is
  outside the embedding.  The system clock read by `validate_timestamp` is the
  `Env.now` field (`0` models an unavailable clock, as in the source's
  `unwrap_or(Duration::from_secs(0))`).
* The Postgres store (`db.rs`) is modelled as two partial maps mirroring the
  `channels` and `recipients` tables; a failing database is modelled by the
  `Env.db` outcome, with the failure taken at the first statement of
  `save_channel` (so a failed save leaves the modelled tables unchanged).
-/

/-- Decidable equality on `Except`, so that concrete runs of the fallible
operations below can be checked by `decide`. -/
instance {ε α : Type} [DecidableEq ε] [DecidableEq α] : DecidableEq (Except ε α) :=
  fun x y =>
    match x, y with
    | .ok a, .ok b =>
      if h : a = b then isTrue (by rw [h])
      else isFalse (by intro hc; cases hc; exact h rfl)
    | .error a, .error b =>
      if h : a = b then isTrue (by rw [h])
      else isFalse (by intro hc; cases hc; exact h rfl)
    | .ok _, .error _ => isFalse (by intro hc; cases hc)
    | .error _, .ok _ => isFalse (by intro hc; cases hc)

namespace Sequencer

/-- Modulus of the 256-bit unsigned integers used by the source (`U256`). -/
def U256MOD : Nat := 2 ^ 256

/-- Embedding of `model.rs::RecipientBalance`: one recipient's cumulative balance. -/
structure RecipientBalance where
  recipient_address : Nat
  balance : Nat
  position : Int
  deriving Repr, DecidableEq

/-- Embedding of `model.rs::ChannelState`: in-memory authoritative state of one channel. -/
structure ChannelState where
  channel_id : Nat
  owner : Nat
  balance : Nat
  expiry_ts : Nat
  sequence_number : Nat
  user_signature : String
  sequencer_signature : String
  signature_timestamp : Nat
  recipients : List RecipientBalance
  deriving Repr, DecidableEq

/-- Embedding of `error.rs::AppError`: the service error type.  `Database` carries the
underlying sqlx error rendered as a string. -/
inductive AppError where
  | ChannelNotFound (id : String)
  | ChannelExpired
  | InsufficientBalance
  | InvalidSignature (expected actual : String)
  | MalformedSignature (msg : String)
  | InvalidSequenceNumber (expected actual : Nat)
  | BalanceOverflow
  | Database (msg : String)
  | ContractCall (msg : String)
  | Internal (msg : String)
  deriving Repr, DecidableEq

/-- Embedding of `model.rs::FeeForPayment`. -/
structure FeeForPayment where
  fee_destination_address : String
  fee_amount : String
  deriving Repr, DecidableEq

/-- Embedding of `model.rs::PayInChannelRequest`: a payment voucher as received by the
`/settle` and `/validate` endpoints. -/
structure PayInChannelRequest where
  channel_id : String
  amount : String
  receiver : String
  sequence_number : Nat
  timestamp : Nat
  user_signature : String
  purpose : Option String
  fee_for_payment : Option FeeForPayment
  deriving Repr, DecidableEq

/-- Embedding of `model.rs::SeedChannelRequest`. -/
structure SeedChannelRequest where
  channel_id : String
  owner : String
  balance : String
  expiry_timestamp : Nat
  deriving Repr, DecidableEq

/-- Embedding of `model.rs::RecipientView`: JSON-facing view of one recipient row. -/
structure RecipientView where
  recipient_address : String
  balance : String
  deriving Repr, DecidableEq

/-- Embedding of `model.rs::ChannelView`: JSON-facing view of a channel. -/
structure ChannelView where
  channel_id : String
  owner : String
  balance : String
  expiry_timestamp : Nat
  sequence_number : Nat
  user_signature : String
  sequencer_signature : String
  signature_timestamp : Nat
  recipients : List RecipientView
  deriving Repr, DecidableEq

/-! ### Hex parsing and formatting helpers

`alloy`'s `Address::from_str` / `B256::from_str` accept an optional `0x`
prefix and case-insensitive hex of exactly the right width (no EIP-55
checksum enforcement); `U256::from_str` accepts a decimal string, or hex
after a `0x` prefix, rejecting values that do not fit in 256 bits.
`format "0x:x"` produces `0x` plus fixed-width lowercase hex. -/

/-- Value of one hex digit, or `none` for a non-hex character. -/
def hexDigitVal (c : Char) : Option Nat :=
  if '0' ≤ c ∧ c ≤ '9' then some (c.toNat - '0'.toNat)
  else if 'a' ≤ c ∧ c ≤ 'f' then some (c.toNat - 'a'.toNat + 10)
  else if 'A' ≤ c ∧ c ≤ 'F' then some (c.toNat - 'A'.toNat + 10)
  else none

/-- Value of one decimal digit, or `none`. -/
def decDigitVal (c : Char) : Option Nat :=
  if '0' ≤ c ∧ c ≤ '9' then some (c.toNat - '0'.toNat) else none

/-- Fold a digit list in a given base; `none` as soon as a digit is invalid. -/
def parseDigits (digitVal : Char → Option Nat) (base : Nat) :
    List Char → Option Nat → Option Nat
  | [], acc => acc
  | c :: cs, acc =>
    match acc, digitVal c with
    | some n, some d => parseDigits digitVal base cs (some (n * base + d))
    | _, _ => none

/-- Strip a `0x` prefix if present (on the character list of the string). -/
def dropHex0x : List Char → List Char
  | '0' :: 'x' :: rest => rest
  | l => l

/-- Embedding of `crypto.rs::parse_address`: parse a 20-byte address from hex. -/
def parse_address (input : String) : Except AppError Nat :=
  let s := dropHex0x input.data
  if s.length = 40 then
    match parseDigits hexDigitVal 16 s (some 0) with
    | some n => .ok n
    | none => .error (.MalformedSignature ("invalid address: " ++ input))
  else .error (.MalformedSignature ("invalid address: " ++ input))

/-- Embedding of `crypto.rs::parse_b256`: parse a 32-byte channel id from hex. -/
def parse_b256 (input : String) : Except AppError Nat :=
  let s := dropHex0x input.data
  if s.length = 64 then
    match parseDigits hexDigitVal 16 s (some 0) with
    | some n => .ok n
    | none => .error (.MalformedSignature ("invalid channel id: " ++ input))
  else .error (.MalformedSignature ("invalid channel id: " ++ input))

/-- Embedding of `crypto.rs::parse_u256`: parse a `U256` from a decimal string (hex after
an explicit `0x` prefix), rejecting out-of-range values. -/
def parse_u256 (input : String) : Except AppError Nat :=
  let parsed :=
    match input.data with
    | '0' :: 'x' :: rest =>
      if rest.length = 0 then none else parseDigits hexDigitVal 16 rest (some 0)
    | l =>
      if l.length = 0 then none else parseDigits decDigitVal 10 l (some 0)
  match parsed with
  | some n =>
    if n < U256MOD then .ok n
    else .error (.MalformedSignature ("invalid uint256: " ++ input))
  | none => .error (.MalformedSignature ("invalid uint256: " ++ input))

/-- One lowercase hex digit. -/
def hexChar (d : Nat) : Char :=
  if d < 10 then Char.ofNat ('0'.toNat + d) else Char.ofNat ('a'.toNat + d - 10)

/-- Fixed-width big-endian lowercase hex digits of `n`. -/
def hexDigits : Nat → Nat → List Char
  | 0, _ => []
  | w + 1, n => hexDigits w (n / 16) ++ [hexChar (n % 16)]

/-- Rendering `format "0x:x"` of an `Address`: `0x` plus 40 lowercase hex digits. -/
def fmtAddress (a : Nat) : String := "0x" ++ String.mk (hexDigits 40 a)

/-- Rendering `format "0x:x"` of a `B256`: `0x` plus 64 lowercase hex digits. -/
def fmtB256 (h : Nat) : String := "0x" ++ String.mk (hexDigits 64 h)

/-- The `u64 as i64` cast (wraps above `2^63`), used when binding DB columns. -/
def i64ofU64 (n : Nat) : Int :=
  if n < 2 ^ 63 then (n : Int) else (n : Int) - 2 ^ 64

/-- Embedding of `model.rs::ChannelView::from_state`. -/
def ChannelView.from_state (c : ChannelState) : ChannelView where
  channel_id := fmtB256 c.channel_id
  owner := fmtAddress c.owner
  balance := toString c.balance
  expiry_timestamp := c.expiry_ts
  sequence_number := c.sequence_number
  user_signature := c.user_signature
  sequencer_signature := c.sequencer_signature
  signature_timestamp := c.signature_timestamp
  recipients := c.recipients.map fun r =>
    { recipient_address := fmtAddress r.recipient_address
      balance := toString r.balance }

/-! ### `crypto.rs` EIP-712 digest construction

The byte-level digest construction is embedded with `keccak256` as an
explicit function parameter `H` over byte lists (entries `< 256`); the
construction itself never inspects hash outputs, so every statement below
holds for the real keccak256 by instantiation. -/

/-- Big-endian byte encoding of `n` on exactly `w` bytes
(`U256::to_be_bytes`, truncating above `2^(8*w)`). -/
def beBytes : Nat → Nat → List Nat
  | 0, _ => []
  | w + 1, n => beBytes w (n / 256) ++ [n % 256]

/-- UTF-8 bytes of an ASCII string (all strings hashed here are ASCII). -/
def strBytes (s : String) : List Nat := s.data.map Char.toNat

/-- Embedding of `crypto.rs::pad_u256`: a `U256` as 32 big-endian bytes. -/
def pad_u256 (v : Nat) : List Nat := beBytes 32 v

/-- A 20-byte address left-padded with 12 zero bytes to 32 bytes. -/
def addrPadded (a : Nat) : List Nat := List.replicate 12 0 ++ beBytes 20 a

/-- Embedding of `crypto.rs::hash_addresses`: keccak of the addresses, each left-padded
to 32 bytes, in order. -/
def hash_addresses (H : List Nat → List Nat) (addrs : List Nat) : List Nat :=
  H (addrs.foldl (fun bytes a => bytes ++ addrPadded a) [])

/-- Embedding of `crypto.rs::hash_u256s`: keccak of the values as 32-byte big-endian
words, in order. -/
def hash_u256s (H : List Nat → List Nat) (vals : List Nat) : List Nat :=
  H (vals.foldl (fun bytes v => bytes ++ beBytes 32 v) [])

/-- Embedding of `crypto.rs::domain_separator`. -/
def domain_separator (H : List Nat → List Nat)
    (chain_id verifying_contract : Nat) : List Nat :=
  let domain_type_hash := H (strBytes
    "EIP712Domain(string name,string version,uint256 chainId,address verifyingContract)")
  let name_hash := H (strBytes "StreamChannel")
  let version_hash := H (strBytes "1")
  let encoded := domain_type_hash ++ name_hash ++ version_hash
    ++ pad_u256 chain_id ++ (List.replicate 12 0 ++ beBytes 20 verifying_contract)
  H encoded

/-- Embedding of `crypto.rs::channel_update_digest`: the EIP-712 digest a voucher
signature commits to. -/
def channel_update_digest (H : List Nat → List Nat)
    (channel_id sequence_number timestamp : Nat)
    (recipients : List RecipientBalance)
    (chain_id verifying_contract : Nat) : List Nat :=
  let recipients_hash :=
    hash_addresses H (recipients.map (·.recipient_address))
  let amounts_hash := hash_u256s H (recipients.map (·.balance))
  let type_hash := H (strBytes
    "ChannelData(bytes32 channelId,uint256 sequenceNumber,uint256 timestamp,address[] recipients,uint256[] amounts)")
  let struct_data := type_hash ++ beBytes 32 channel_id
    ++ pad_u256 sequence_number ++ pad_u256 timestamp
    ++ recipients_hash ++ amounts_hash
  let struct_hash := H struct_data
  let ds := domain_separator H chain_id verifying_contract
  H ([0x19, 0x01] ++ ds ++ struct_hash)

/-! ### `crypto.rs::validate_timestamp` -/

/-- Embedding of `crypto.rs::validate_timestamp`, with the system clock (`now`, Unix
seconds; `0` when the clock is unavailable) made explicit. -/
def validate_timestamp (now timestamp expiry_ts : Nat) :
    Except AppError Unit :=
  let max_future := now + 15 * 60
  if timestamp > max_future then
    .error (.Internal "timestamp is too far in the future")
  else if timestamp > expiry_ts then
    .error .ChannelExpired
  else
    .ok ()

/-! ### `db.rs`: the durable store -/

/-- One row of the `channels` table, columns in schema order. -/
structure ChannelRow where
  owner : String
  balance : String
  expiry_ts : Int
  sequence_number : Int
  user_signature : String
  sequencer_signature : String
  signature_timestamp : Int
  deriving Repr, DecidableEq

/-- The Postgres store: the `channels` table keyed by `channel_id` text and
the `recipients` table keyed by `(channel_id, recipient_address)` text pair,
each row holding `(balance text, position int)`. -/
structure DbState where
  channels : String → Option ChannelRow
  recipients : String × String → Option (String × Int)

/-- Effect of `db.rs::save_channel` applied to the modelled tables: upsert the channel
row, then upsert one row per recipient (rows of removed recipients are never
deleted). -/
def save_channel_apply (db : DbState) (c : ChannelState) : DbState :=
  let key := fmtB256 c.channel_id
  let row : ChannelRow :=
    { owner := fmtAddress c.owner
      balance := toString c.balance
      expiry_ts := i64ofU64 c.expiry_ts
      sequence_number := i64ofU64 c.sequence_number
      user_signature := c.user_signature
      sequencer_signature := c.sequencer_signature
      signature_timestamp := i64ofU64 c.signature_timestamp }
  let db1 : DbState :=
    { db with channels := fun k => if k = key then some row else db.channels k }
  c.recipients.foldl
    (fun d r =>
      { d with recipients := fun k =>
          if k = (key, fmtAddress r.recipient_address) then
            some (toString r.balance, r.position)
          else d.recipients k })
    db1

/-! ### `service.rs`: application state, environment and operations -/

/-- Outcome of the database connection during one call: `ok`, or failing
with a given sqlx error message (the failure is modelled at the first
statement of `save_channel`, leaving the tables unchanged). -/
inductive DbOutcome where
  | ok
  | fail (msg : String)
  deriving Repr, DecidableEq

/-- The effectful environment of one service call: configuration
(`chain_id`, `channel_manager`), the system clock, the secp256k1 oracles
(`crypto.rs::recover_signature` and `crypto.rs::sign_update` with the
sequencer wallet bound), and the database outcome.  The oracles take the
same arguments as the source functions. -/
structure Env where
  now : Nat
  chain_id : Nat
  channel_manager : Nat
  recover : Nat → Nat → Nat → List RecipientBalance → Nat → Nat → String →
    Except AppError Nat
  sign : Nat → Nat → Nat → List RecipientBalance → Nat → Nat →
    Except AppError String
  db : DbOutcome

/-- Embedding of `service.rs::AppState`, restricted to the parts the claims mention: the
in-memory channel index (`HashMap<String, ChannelState>`) and the durable
store. -/
structure AppState where
  channels : String → Option ChannelState
  db : DbState

/-- Insert into the in-memory index (`HashMap::insert`). -/
def insertChannel (m : String → Option ChannelState) (k : String)
    (v : ChannelState) : String → Option ChannelState :=
  fun k2 => if k2 = k then some v else m k2

/-- Embedding of `service.rs::add_amount`: add `amount` to the first entry whose address
matches, appending a fresh entry at `position = len` when none does; a zero
amount is a no-op.  The entry update is the wrapping `+=` of `U256`. -/
def addToFirst (address amount : Nat) :
    List RecipientBalance → Option (List RecipientBalance)
  | [] => none
  | r :: rs =>
    if r.recipient_address = address then
      some ({ r with balance := (r.balance + amount) % U256MOD } :: rs)
    else
      match addToFirst address amount rs with
      | some rs2 => some (r :: rs2)
      | none => none

/-- Embedding of `service.rs::add_amount` (see `addToFirst`). -/
def add_amount (recipients : List RecipientBalance)
    (address amount : Nat) : List RecipientBalance :=
  if amount = 0 then recipients
  else
    match addToFirst address amount recipients with
    | some updated => updated
    | none =>
      recipients ++
        [{ recipient_address := address, balance := amount,
           position := (recipients.length : Int) }]

/-- Embedding of `service.rs::compute_next_state`: validate a voucher against the current
channel state and build the candidate next state (sequencer co-signature
cleared); pure of any state mutation.  The running total uses the wrapping
`+` of `U256`. -/
def compute_next_state (env : Env) (channel : ChannelState)
    (payload : PayInChannelRequest) : Except AppError ChannelState := do
  let receiver ← parse_address payload.receiver
  let amount ← parse_u256 payload.amount
  let fee ← match payload.fee_for_payment with
    | none => pure (Option.none (α := Nat × Nat))
    | some f => do
      let fee_address ← parse_address f.fee_destination_address
      let fee_amount ← parse_u256 f.fee_amount
      pure (some (fee_address, fee_amount))
  if amount = 0 then
    throw .InsufficientBalance
  let _ ← validate_timestamp env.now payload.timestamp channel.expiry_ts
  let recipients := add_amount channel.recipients receiver amount
  let recipients := match fee with
    | some (fee_address, fee_amount) => add_amount recipients fee_address fee_amount
    | none => recipients
  let total := recipients.foldl (fun acc r => (acc + r.balance) % U256MOD) 0
  if total > channel.balance then
    throw .BalanceOverflow
  let recovered ← env.recover channel.channel_id payload.sequence_number
    payload.timestamp recipients env.chain_id env.channel_manager
    payload.user_signature
  if recovered ≠ channel.owner then
    throw (.InvalidSignature (fmtAddress channel.owner) (fmtAddress recovered))
  pure { channel with
    sequence_number := payload.sequence_number
    user_signature := payload.user_signature
    sequencer_signature := ""
    signature_timestamp := payload.timestamp
    recipients := recipients }

/-- Embedding of `service.rs::validate_pay_in_channel`: read-only preview; returns the
response's `ChannelView` without touching any state. -/
def validate_pay_in_channel (env : Env) (st : AppState)
    (payload : PayInChannelRequest) : Except AppError ChannelView :=
  match st.channels payload.channel_id with
  | none => .error (.ChannelNotFound payload.channel_id)
  | some channel =>
    if payload.sequence_number = channel.sequence_number then
      if payload.user_signature = channel.user_signature ∧
          payload.timestamp = channel.signature_timestamp then
        .ok (ChannelView.from_state channel)
      else
        .error (.InvalidSequenceNumber channel.sequence_number
          payload.sequence_number)
    else if payload.sequence_number ≠ channel.sequence_number + 1 then
      .error (.InvalidSequenceNumber (channel.sequence_number + 1)
        payload.sequence_number)
    else
      (compute_next_state env channel payload).map ChannelView.from_state

/-- Embedding of `service.rs::settle`: parse the channel id, look the channel up, handle
replay / sequence checks, compute the next state, co-sign, replace the
in-memory state, persist, and return the view.  Returns the resulting
`AppState` next to the response so state changes are observable. -/
def settle (env : Env) (st : AppState) (payload : PayInChannelRequest) :
    AppState × Except AppError ChannelView :=
  match parse_b256 payload.channel_id with
  | .error e => (st, .error e)
  | .ok _channel_id =>
    match st.channels payload.channel_id with
    | none => (st, .error (.ChannelNotFound payload.channel_id))
    | some channel =>
      if payload.sequence_number = channel.sequence_number then
        if payload.user_signature = channel.user_signature ∧
            payload.timestamp = channel.signature_timestamp then
          (st, .ok (ChannelView.from_state channel))
        else
          (st, .error (.InvalidSequenceNumber channel.sequence_number
            payload.sequence_number))
      else if payload.sequence_number ≠ channel.sequence_number + 1 then
        (st, .error (.InvalidSequenceNumber (channel.sequence_number + 1)
          payload.sequence_number))
      else
        match compute_next_state env channel payload with
        | .error e => (st, .error e)
        | .ok next =>
          match env.sign next.channel_id next.sequence_number
              next.signature_timestamp next.recipients env.chain_id
              env.channel_manager with
          | .error e => (st, .error e)
          | .ok sequencer_signature =>
            let updated := { next with
              sequencer_signature := sequencer_signature }
            let channels := insertChannel st.channels payload.channel_id updated
            match env.db with
            | .fail msg =>
              ({ st with channels := channels }, .error (.Database msg))
            | .ok =>
              ({ channels := channels,
                 db := save_channel_apply st.db updated },
               .ok (ChannelView.from_state updated))

/-- Embedding of `service.rs::seed_channel`: parse the request, build the fresh state,
persist it, then publish it to the in-memory index under the request's
verbatim `channelId` string. -/
def seed_channel (env : Env) (st : AppState) (payload : SeedChannelRequest) :
    AppState × Except AppError ChannelView :=
  match parse_b256 payload.channel_id with
  | .error e => (st, .error e)
  | .ok channel_id =>
    match parse_address payload.owner with
    | .error e => (st, .error e)
    | .ok owner =>
      match parse_u256 payload.balance with
      | .error e => (st, .error e)
      | .ok balance =>
        let channel_state : ChannelState :=
          { channel_id := channel_id
            owner := owner
            balance := balance
            expiry_ts := payload.expiry_timestamp
            sequence_number := 0
            user_signature := ""
            sequencer_signature := ""
            signature_timestamp := 0
            recipients := [] }
        match env.db with
        | .fail msg => (st, .error (.Database msg))
        | .ok =>
          ({ channels := insertChannel st.channels payload.channel_id
               channel_state,
             db := save_channel_apply st.db channel_state },
           .ok (ChannelView.from_state channel_state))

/-! ### Spec-side definitions

`spec_channel_update_digest` transcribes the specification's digest formula
word for word, to be compared with the embedding of
`crypto.rs::channel_update_digest` above.  The remaining definitions state
invariants used by the claims. -/

/-- The digest as the specification words it:
`digest = H(0x19 ‖ 0x01 ‖ domainSeparator ‖ structHash)` with
`domainSeparator = H(DOMAIN_TYPEHASH ‖ H("StreamChannel") ‖ H("1") ‖
pad32(chainId) ‖ pad32(verifyingContract))`,
`structHash = H(STRUCT_TYPEHASH ‖ channelId ‖ pad32(sequenceNumber) ‖
pad32(timestamp) ‖ recipientsHash ‖ amountsHash)`, `recipientsHash` the hash
of the addresses each left-padded to 32 bytes in recipient order, and
`amountsHash` the hash of the amounts as 32-byte big-endian values. -/
def spec_channel_update_digest (H : List Nat → List Nat)
    (channel_id sequence_number timestamp : Nat)
    (recipients : List RecipientBalance)
    (chain_id verifying_contract : Nat) : List Nat :=
  let domainSeparator := H (H (strBytes
      "EIP712Domain(string name,string version,uint256 chainId,address verifyingContract)")
    ++ H (strBytes "StreamChannel") ++ H (strBytes "1")
    ++ beBytes 32 chain_id ++ beBytes 32 verifying_contract)
  let recipientsHash := H
    ((recipients.map fun r => List.replicate 12 0 ++ beBytes 20 r.recipient_address).flatten)
  let amountsHash := H ((recipients.map fun r => beBytes 32 r.balance).flatten)
  let structHash := H (H (strBytes
      "ChannelData(bytes32 channelId,uint256 sequenceNumber,uint256 timestamp,address[] recipients,uint256[] amounts)")
    ++ beBytes 32 channel_id ++ beBytes 32 sequence_number
    ++ beBytes 32 timestamp ++ recipientsHash ++ amountsHash)
  H ([0x19, 0x01] ++ domainSeparator ++ structHash)

/-- Invariant I4 of the specification: recipient addresses are unique and
the positions are exactly `0..len-1` in order. -/
def I4 (rs : List RecipientBalance) : Prop :=
  (rs.map (·.recipient_address)).Nodup ∧
  rs.map (·.position) = (List.range rs.length).map Int.ofNat

/-- I4 is decidable, so witnesses can check it on concrete lists. -/
instance (rs : List RecipientBalance) : Decidable (I4 rs) := by
  unfold I4
  infer_instance

/-- The per-entry update `service.rs::add_amount` performs when it finds an
existing entry for `address` (wrapping `U256` addition). -/
def bumpBalance (address amount : Nat) (r : RecipientBalance) :
    RecipientBalance :=
  if r.recipient_address = address then
    { r with balance := (r.balance + amount) % U256MOD }
  else r

/-- Clear a view's sequencer co-signature, for comparing `settle` and
`validate` results up to the co-signature. -/
def eraseSeqSig (v : ChannelView) : ChannelView :=
  { v with sequencer_signature := "" }

/-- The true (unwrapped) cumulative total of a recipient list. -/
def natTotal (rs : List RecipientBalance) : Nat :=
  rs.foldl (fun acc r => acc + r.balance) 0

/-! ### Concrete instances used by witnesses and counterexamples -/

/-- A concrete stand-in for keccak256 when a claim is instantiated. -/
def countHash (l : List Nat) : List Nat := [l.length % 256]

/-- A benign environment: small clock, recovery always yields address 1,
signing yields a fixed string, database up. -/
def okEnv : Env :=
  { now := 500, chain_id := 1, channel_manager := 2,
    recover := fun _ _ _ _ _ _ _ => .ok 1,
    sign := fun _ _ _ _ _ _ => .ok "0xseq",
    db := .ok }

/-- Environment `okEnv` with a failing database. -/
def failDbEnv : Env := { okEnv with db := .fail "connection lost" }

/-- A hostile environment: zero clock, recovery and signing always fail,
database down — exercised by the replay claim. -/
def badEnv : Env :=
  { now := 0, chain_id := 9, channel_manager := 9,
    recover := fun _ _ _ _ _ _ _ => .error .ChannelExpired,
    sign := fun _ _ _ _ _ _ => .error (.Internal "signer offline"),
    db := .fail "down" }

/-- The channel-id key `0x00…01` (64 lowercase hex digits). -/
def key1 : String := "0x" ++ String.mk (List.replicate 63 '0') ++ "1"

/-- A freshly seeded channel with id 1, owner 1, balance 100. -/
def chanSeeded : ChannelState :=
  { channel_id := 1, owner := 1, balance := 100, expiry_ts := 1000,
    sequence_number := 0, user_signature := "", sequencer_signature := "",
    signature_timestamp := 0, recipients := [] }

/-- Index holding only `chanSeeded` under `key1`, over an empty store. -/
def stOne : AppState :=
  { channels := fun k => if k = key1 then some chanSeeded else none,
    db := { channels := fun _ => none, recipients := fun _ => none } }

/-- A well-formed first voucher on `chanSeeded`. -/
def reqPay : PayInChannelRequest :=
  { channel_id := key1, amount := "5", receiver := fmtAddress 7,
    sequence_number := 1, timestamp := 500, user_signature := "0xu",
    purpose := none, fee_for_payment := none }

/-- The state `settle okEnv stOne reqPay` commits. -/
def chanAfterPay : ChannelState :=
  { chanSeeded with
    sequence_number := 1, user_signature := "0xu",
    sequencer_signature := "0xseq", signature_timestamp := 500,
    recipients := [{ recipient_address := 7, balance := 5, position := 0 }] }

/-- Request `reqPay` with an unparseable channel id. -/
def reqBadId : PayInChannelRequest := { reqPay with channel_id := "zz" }

/-- A channel at sequence 2 whose stored voucher timestamp (5000) exceeds
its expiry (1000): an expired channel with one recipient. -/
def chanReplay : ChannelState :=
  { channel_id := 1, owner := 1, balance := 100, expiry_ts := 1000,
    sequence_number := 2, user_signature := "0xu",
    sequencer_signature := "0xold", signature_timestamp := 5000,
    recipients := [{ recipient_address := 7, balance := 5, position := 0 }] }

/-- Index holding only `chanReplay` under `key1`. -/
def stReplay : AppState :=
  { channels := fun k => if k = key1 then some chanReplay else none,
    db := { channels := fun _ => none, recipients := fun _ => none } }

/-- The exact replay of `chanReplay`'s current voucher, with garbage in the
fields the replay path never reads. -/
def reqReplay : PayInChannelRequest :=
  { channel_id := key1, amount := "not a number", receiver := "garbage",
    sequence_number := 2, timestamp := 5000, user_signature := "0xu",
    purpose := none, fee_for_payment := none }

/-- A channel whose recipient total already equals its balance of 10. -/
def chanFull : ChannelState :=
  { channel_id := 1, owner := 1, balance := 10, expiry_ts := 1000,
    sequence_number := 0, user_signature := "", sequencer_signature := "",
    signature_timestamp := 0,
    recipients := [{ recipient_address := 3, balance := 10, position := 0 }] }

/-- Index holding only `chanFull` under `key1`, over an empty store. -/
def stFull : AppState :=
  { channels := fun k => if k = key1 then some chanFull else none,
    db := { channels := fun _ => none, recipients := fun _ => none } }

/-- A voucher paying `2^256 - 5` to a new recipient of `chanFull`: the
256-bit running total wraps to 5. -/
def reqHuge : PayInChannelRequest :=
  { reqPay with amount := toString (2 ^ 256 - 5) }

/-- The state `settle okEnv stFull reqHuge` commits (true total `2^256 + 5`
on a balance of 10). -/
def chanInsolvent : ChannelState :=
  { chanFull with
    sequence_number := 1, user_signature := "0xu",
    sequencer_signature := "0xseq", signature_timestamp := 500,
    recipients := [{ recipient_address := 3, balance := 10, position := 0 },
      { recipient_address := 7, balance := 2 ^ 256 - 5, position := 1 }] }

/-- The channel-id string `0x00…0A` (uppercase final hex digit). -/
def keyUpperA : String := "0x" ++ String.mk (List.replicate 63 '0') ++ "A"

/-- The lowercase form of `keyUpperA`. -/
def keyLowerA : String := "0x" ++ String.mk (List.replicate 63 '0') ++ "a"

/-- A pre-existing channel with id 10 (hex `0x…0a`) holding one recipient. -/
def chanOldA : ChannelState :=
  { channel_id := 10, owner := 1, balance := 10, expiry_ts := 1000,
    sequence_number := 2, user_signature := "0xu",
    sequencer_signature := "0xold", signature_timestamp := 600,
    recipients := [{ recipient_address := 3, balance := 7, position := 0 }] }

/-- State before re-seeding: `chanOldA` lives under its lowercase key (as
after a restart from the store) and its recipient row is durable. -/
def stPreSeed : AppState :=
  { channels := fun k => if k = keyLowerA then some chanOldA else none,
    db := { channels := fun k =>
              if k = keyLowerA then
                some { owner := fmtAddress 1, balance := "10",
                       expiry_ts := 1000, sequence_number := 2,
                       user_signature := "0xu", sequencer_signature := "0xold",
                       signature_timestamp := 600 }
              else none,
            recipients := fun k =>
              if k = (keyLowerA, fmtAddress 3) then some ("7", 0) else none } }

/-- Re-seed request for the same channel, spelled with an uppercase hex
digit. -/
def reqSeed : SeedChannelRequest :=
  { channel_id := keyUpperA, owner := fmtAddress 1, balance := "100",
    expiry_timestamp := 1000 }

/-- The fresh state `seed_channel` builds: sequence 0, empty signatures,
zero signature timestamp, no recipients. -/
def freshChannel (cid ow bal expiry : Nat) : ChannelState :=
  { channel_id := cid, owner := ow, balance := bal, expiry_ts := expiry,
    sequence_number := 0, user_signature := "", sequencer_signature := "",
    signature_timestamp := 0, recipients := [] }

/-- A two-entry recipient list satisfying I4, for the add_amount witness. -/
def rsTwo : List RecipientBalance :=
  [{ recipient_address := 1, balance := 5, position := 0 },
   { recipient_address := 2, balance := 7, position := 1 }]


/-! ## Claim theorems -/

/-- C7 counterexample: at `now = 0`, `timestamp = 901`, `expiryTs = 10000`
the future-drift check fires, but the error message is
"timestamp is too far in the future", not the claimed
"timestamp too far in the future". -/
theorem validate_timestamp_future_message :
    validate_timestamp 0 901 10000 =
      .error (.Internal "timestamp is too far in the future") ∧
    validate_timestamp 0 901 10000 ≠
      .error (.Internal "timestamp too far in the future") := by
  decide

/-- C7 (amended): for every clock value `now` (0 when the clock is
unavailable), voucher `timestamp` and channel `expiryTs`:
if `timestamp > now + 900` the result is
`Internal "timestamp is too far in the future"`; otherwise if
`timestamp > expiryTs` the result is `ChannelExpired`; otherwise success.
The future-drift check is applied first. -/
theorem validate_timestamp_spec (now timestamp expiry_ts : Nat) :
    (timestamp > now + 900 →
      validate_timestamp now timestamp expiry_ts =
        .error (.Internal "timestamp is too far in the future")) ∧
    (timestamp ≤ now + 900 → timestamp > expiry_ts →
      validate_timestamp now timestamp expiry_ts = .error .ChannelExpired) ∧
    (timestamp ≤ now + 900 → timestamp ≤ expiry_ts →
      validate_timestamp now timestamp expiry_ts = .ok ()) := by
  refine ⟨fun h => ?_, fun h1 h2 => ?_, fun h1 h2 => ?_⟩
  · simp only [validate_timestamp]
    rw [if_pos (by omega)]
  · simp only [validate_timestamp]
    rw [if_neg (by omega), if_pos (by omega)]
  · simp only [validate_timestamp]
    rw [if_neg (by omega), if_neg (by omega)]

/-- C7 witness: the three branches of `validate_timestamp_spec` at concrete
inputs. -/
theorem validate_timestamp_spec_witness :
    validate_timestamp 0 901 10000 =
      .error (.Internal "timestamp is too far in the future") ∧
    validate_timestamp 100 900 500 = .error .ChannelExpired ∧
    validate_timestamp 100 900 1000 = .ok () :=
  ⟨(validate_timestamp_spec 0 901 10000).1 (by decide),
   ((validate_timestamp_spec 100 900 500).2.1 (by decide) (by decide)),
   ((validate_timestamp_spec 100 900 1000).2.2 (by decide) (by decide))⟩

/-- C9: an exact replay (sequence number, user signature and timestamp all
equal to the stored ones) returns the current state unchanged for EVERY
environment — any clock, any recovery or signing oracle, any database
outcome — so no timestamp validation, amount parsing or signature recovery
is performed; in particular it succeeds on an expired channel. -/
theorem settle_exact_replay_short_circuits (env : Env) (st : AppState)
    (payload : PayInChannelRequest) (channel : ChannelState)
    (hparse : ∃ cid, parse_b256 payload.channel_id = .ok cid)
    (hlook : st.channels payload.channel_id = some channel)
    (hseq : payload.sequence_number = channel.sequence_number)
    (hsig : payload.user_signature = channel.user_signature)
    (hts : payload.timestamp = channel.signature_timestamp) :
    settle env st payload = (st, .ok (ChannelView.from_state channel)) := by
  obtain ⟨cid, hcid⟩ := hparse
  unfold settle
  simp only [hcid, hlook]
  simp [hseq, hsig, hts]

/-- C9 witness: the hostile `badEnv` (dead clock, failing oracles, database
down) still answers the exact replay on the expired `chanReplay` with the
stored state. -/
theorem settle_exact_replay_short_circuits_witness :
    settle badEnv stReplay reqReplay =
      (stReplay, .ok (ChannelView.from_state chanReplay)) :=
  settle_exact_replay_short_circuits badEnv stReplay reqReplay chanReplay
    ⟨1, by decide⟩ (by decide) (by decide) (by decide) (by decide)

/-- C3: with the channel present, (a) an exact replay at the current
sequence number returns the current state unchanged, (b) any other request
at the current sequence number is rejected with
`InvalidSequenceNumber{expected: current, actual: requested}`, and (c) a
request at any other sequence number than current + 1 is rejected with
`InvalidSequenceNumber{expected: current + 1, actual: requested}`. -/
theorem settle_sequence_number_checks (env : Env) (st : AppState)
    (payload : PayInChannelRequest) (channel : ChannelState)
    (hparse : ∃ cid, parse_b256 payload.channel_id = .ok cid)
    (hlook : st.channels payload.channel_id = some channel) :
    (payload.sequence_number = channel.sequence_number →
      ((payload.user_signature = channel.user_signature ∧
        payload.timestamp = channel.signature_timestamp) →
        settle env st payload = (st, .ok (ChannelView.from_state channel))) ∧
      (¬(payload.user_signature = channel.user_signature ∧
        payload.timestamp = channel.signature_timestamp) →
        settle env st payload =
          (st, .error (.InvalidSequenceNumber channel.sequence_number
            payload.sequence_number)))) ∧
    (payload.sequence_number ≠ channel.sequence_number →
      payload.sequence_number ≠ channel.sequence_number + 1 →
      settle env st payload =
        (st, .error (.InvalidSequenceNumber (channel.sequence_number + 1)
          payload.sequence_number))) := by
  obtain ⟨cid, hcid⟩ := hparse
  refine ⟨fun hseq => ⟨fun hrep => ?_, fun hrep => ?_⟩, fun hseq hnext => ?_⟩
  · unfold settle
    simp only [hcid, hlook]
    simp [hseq, hrep.1, hrep.2]
  · unfold settle
    simp only [hcid, hlook]
    simp only [if_pos hseq]
    rw [if_neg hrep]
  · unfold settle
    simp only [hcid, hlook]
    rw [if_neg hseq, if_pos hnext]


theorem compute_next_state_clears_cosig (env : Env) (channel : ChannelState)
    (payload : PayInChannelRequest) (next : ChannelState)
    (h : compute_next_state env channel payload = .ok next) :
    next.sequencer_signature = "" := by
  unfold compute_next_state at h
  simp only [bind, Except.bind, pure, Except.pure] at h
  cases h1 : parse_address payload.receiver with
  | error e => simp [h1] at h
  | ok receiver =>
  simp only [h1] at h
  cases h2 : parse_u256 payload.amount with
  | error e => simp [h2] at h
  | ok amount =>
  simp only [h2] at h
  cases hf : payload.fee_for_payment with
  | none =>
    simp only [hf] at h
    by_cases hz : amount = 0
    · rw [if_pos hz] at h; cases h
    · rw [if_neg hz] at h
      cases hv : validate_timestamp env.now payload.timestamp channel.expiry_ts with
      | error e => rw [hv] at h; cases h
      | ok u =>
        simp only [hv] at h
        split at h
        · cases h
        · cases hr : env.recover channel.channel_id payload.sequence_number
              payload.timestamp (add_amount channel.recipients receiver amount)
              env.chain_id env.channel_manager payload.user_signature with
          | error e => rw [hr] at h; cases h
          | ok recovered =>
            simp only [hr] at h
            split at h
            · cases h
            · cases h; rfl
  | some f =>
    simp only [hf] at h
    cases h3 : parse_address f.fee_destination_address with
    | error e => simp [h3] at h
    | ok fee_address =>
    simp only [h3] at h
    cases h4 : parse_u256 f.fee_amount with
    | error e => simp [h4] at h
    | ok fee_amount =>
    simp only [h4] at h
    by_cases hz : amount = 0
    · rw [if_pos hz] at h; cases h
    · rw [if_neg hz] at h
      cases hv : validate_timestamp env.now payload.timestamp channel.expiry_ts with
      | error e => rw [hv] at h; cases h
      | ok u =>
        simp only [hv] at h
        split at h
        · cases h
        · cases hr : env.recover channel.channel_id payload.sequence_number
              payload.timestamp (add_amount (add_amount channel.recipients receiver amount)
                fee_address fee_amount)
              env.chain_id env.channel_manager payload.user_signature with
          | error e => rw [hr] at h; cases h
          | ok recovered =>
            simp only [hr] at h
            split at h
            · cases h
            · cases h; rfl


/-- C10: every view produced by `validate` through the non-replay path
carries an empty sequencer co-signature (`compute_next_state` clears the
stored one and `validate` never co-signs), whatever the stored
`sequencerSignature` was. -/
theorem validate_nonreplay_clears_sequencer_signature (env : Env)
    (st : AppState) (payload : PayInChannelRequest) (channel : ChannelState)
    (view : ChannelView)
    (hlook : st.channels payload.channel_id = some channel)
    (hseq : payload.sequence_number ≠ channel.sequence_number)
    (hok : validate_pay_in_channel env st payload = .ok view) :
    view.sequencer_signature = "" := by
  unfold validate_pay_in_channel at hok
  simp only [hlook] at hok
  rw [if_neg hseq] at hok
  by_cases hnext : payload.sequence_number = channel.sequence_number + 1
  · rw [if_neg (by simpa using hnext)] at hok
    cases hc : compute_next_state env channel payload with
    | error e => rw [hc] at hok; simp [Except.map] at hok
    | ok next =>
      rw [hc] at hok
      simp only [Except.map] at hok
      cases hok
      exact compute_next_state_clears_cosig env channel payload next hc
  · rw [if_pos (by simpa using hnext)] at hok
    cases hok

/-- C10 witness: a concrete non-replay validation over a channel whose
stored co-signature is the non-empty string "0xold". -/
theorem validate_nonreplay_clears_sequencer_signature_witness :
    (ChannelView.from_state
      { chanReplay with
        sequence_number := 3, user_signature := "0xu2",
        sequencer_signature := "", signature_timestamp := 600,
        recipients := [{ recipient_address := 7, balance := 5, position := 0 },
          { recipient_address := 9, balance := 1, position := 1 }] }).sequencer_signature
      = "" :=
  validate_nonreplay_clears_sequencer_signature
    { okEnv with now := 600 } stReplay
    { channel_id := key1, amount := "1", receiver := fmtAddress 9,
      sequence_number := 3, timestamp := 600, user_signature := "0xu2",
      purpose := none, fee_for_payment := none }
    chanReplay _ (by decide) (by decide) (by decide)

/-- C1 counterexample: when the persistence step fails, `settle` returns a
`Database` error but the in-memory channel state has already been replaced
by the settled state, so it no longer equals the pre-call state. -/
theorem settle_database_error_leaves_memory_mutated :
    (settle failDbEnv stOne reqPay).2 = .error (.Database "connection lost") ∧
    (settle failDbEnv stOne reqPay).1.channels key1 = some chanAfterPay ∧
    stOne.channels key1 = some chanSeeded ∧
    chanAfterPay ≠ chanSeeded := by
  refine ⟨by decide, by decide, by decide, by decide⟩

/-- C1 (amended): every error raised before the persistence step — parsing,
lookup, sequence checks, amount, timestamp, solvency, signature recovery,
co-signing — leaves both the in-memory index and the durable store exactly
at the pre-call state; only a `Database` error (failed persistence) can
leave the in-memory state already advanced. -/
theorem settle_pre_persist_error_preserves_state (env : Env) (st : AppState)
    (payload : PayInChannelRequest) (e : AppError)
    (herr : (settle env st payload).2 = .error e)
    (hdb : ∀ msg, e ≠ .Database msg) :
    (settle env st payload).1 = st := by
  unfold settle at herr ⊢
  cases hp : parse_b256 payload.channel_id with
  | error e2 => simp only [hp]
  | ok cid =>
  simp only [hp] at herr ⊢
  cases hl : st.channels payload.channel_id with
  | none => simp only [hl]
  | some channel =>
  simp only [hl] at herr ⊢
  by_cases hseq : payload.sequence_number = channel.sequence_number
  · rw [if_pos hseq] at herr ⊢
    by_cases hrep : payload.user_signature = channel.user_signature ∧
        payload.timestamp = channel.signature_timestamp
    · rw [if_pos hrep]
    · rw [if_neg hrep]
  · rw [if_neg hseq] at herr ⊢
    by_cases hnext : payload.sequence_number ≠ channel.sequence_number + 1
    · rw [if_pos hnext]
    · rw [if_neg hnext] at herr ⊢
      cases hc : compute_next_state env channel payload with
      | error e2 => simp only [hc]
      | ok next =>
      simp only [hc] at herr ⊢
      cases hs : env.sign next.channel_id next.sequence_number
          next.signature_timestamp next.recipients env.chain_id
          env.channel_manager with
      | error e2 => simp only [hs]
      | ok cosig =>
      simp only [hs] at herr ⊢
      cases hd : env.db with
      | fail msg =>
        simp only [hd] at herr ⊢
        cases herr
        exact absurd rfl (hdb msg)
      | ok =>
        simp only [hd] at herr
        cases herr

/-- C1 witness: a validation error (malformed channel id) leaves the state
untouched. -/
theorem settle_pre_persist_error_preserves_state_witness :
    (settle okEnv stOne reqBadId).1 = stOne :=
  settle_pre_persist_error_preserves_state okEnv stOne reqBadId
    (.MalformedSignature "invalid channel id: zz") (by decide)
    (fun msg h => by cases h)


/-- C4 (bug evidence): `chanFull` satisfies solvency (total 10 = balance
10); the voucher `reqHuge` pays `2^256 - 5` to a new recipient, the 256-bit
running total wraps to 5 ≤ 10, and `settle` accepts and commits a state
whose true cumulative total `2^256 + 5` exceeds the balance instead of
returning `BalanceOverflow`. -/
theorem settle_wrapping_total_accepts_insolvent_state :
    natTotal chanFull.recipients ≤ chanFull.balance ∧
    (settle okEnv stFull reqHuge).2 =
      .ok (ChannelView.from_state chanInsolvent) ∧
    (settle okEnv stFull reqHuge).1.channels key1 = some chanInsolvent ∧
    natTotal chanInsolvent.recipients > chanInsolvent.balance := by
  refine ⟨by decide, by decide, by decide, by decide⟩

/-- C6 counterexample: on a request whose channel id does not parse as a
32-byte hash, `settle` fails in parsing with `MalformedSignature` while
`validate` reports `ChannelNotFound` — the two paths do not return the same
error. -/
theorem settle_validate_malformed_id_divergence :
    (settle okEnv stOne reqBadId).2 =
      .error (.MalformedSignature "invalid channel id: zz") ∧
    validate_pay_in_channel okEnv stOne reqBadId =
      .error (.ChannelNotFound "zz") ∧
    (settle okEnv stOne reqBadId).2 ≠ validate_pay_in_channel okEnv stOne reqBadId := by
  refine ⟨by decide, by decide, by decide⟩

/-- C6 (amended): whenever the request's channelId does parse (the only
check `settle` performs that `validate` does not), the sequencer co-signing
succeeds and the database is up, `validate` and `settle` agree exactly:
same error in every failing case, and the same view up to the sequencer
co-signature on success; `validate` by construction mutates nothing. -/
theorem settle_validate_agree_up_to_cosignature (env : Env) (st : AppState)
    (payload : PayInChannelRequest)
    (hparse : ∃ cid, parse_b256 payload.channel_id = .ok cid)
    (hsign : ∀ a b c d e f, ∃ s, env.sign a b c d e f = .ok s)
    (hdb : env.db = .ok) :
    ((settle env st payload).2).map eraseSeqSig =
      (validate_pay_in_channel env st payload).map eraseSeqSig := by
  obtain ⟨cid, hcid⟩ := hparse
  unfold settle validate_pay_in_channel
  simp only [hcid]
  cases hl : st.channels payload.channel_id with
  | none => rfl
  | some channel =>
  simp only [hl]
  by_cases hseq : payload.sequence_number = channel.sequence_number
  · rw [if_pos hseq, if_pos hseq]
    by_cases hrep : payload.user_signature = channel.user_signature ∧
        payload.timestamp = channel.signature_timestamp
    · rw [if_pos hrep, if_pos hrep]
    · rw [if_neg hrep, if_neg hrep]
  · rw [if_neg hseq, if_neg hseq]
    by_cases hnext : payload.sequence_number ≠ channel.sequence_number + 1
    · rw [if_pos hnext, if_pos hnext]
    · rw [if_neg hnext, if_neg hnext]
      cases hc : compute_next_state env channel payload with
      | error e => simp only [hc, Except.map]
      | ok next =>
      simp only [hc, Except.map]
      obtain ⟨s, hs⟩ := hsign next.channel_id next.sequence_number
        next.signature_timestamp next.recipients env.chain_id
        env.channel_manager
      simp only [hs, hdb, Except.map]
      cases next
      rfl

/-- C6 witness: on the well-formed voucher `reqPay` the two paths agree up
to the co-signature. -/
theorem settle_validate_agree_up_to_cosignature_witness :
    ((settle okEnv stOne reqPay).2).map eraseSeqSig =
      (validate_pay_in_channel okEnv stOne reqPay).map eraseSeqSig :=
  settle_validate_agree_up_to_cosignature okEnv stOne reqPay
    ⟨1, by decide⟩ (fun _ _ _ _ _ _ => ⟨"0xseq", rfl⟩) rfl


set_option maxRecDepth 8192 in
/-- C8 counterexample: re-seeding channel `0x…0a` through a request spelled
`0x…0A` succeeds, yet the index entry under the lowercase id is still the
old (non-fresh) state — the fresh state went in under the verbatim
uppercase string — and the old recipient row survives in the durable
store. -/
theorem seed_channel_key_and_stale_recipients :
    (seed_channel okEnv stPreSeed reqSeed).2 =
      .ok (ChannelView.from_state (freshChannel 10 1 100 1000)) ∧
    (seed_channel okEnv stPreSeed reqSeed).1.channels keyLowerA =
      some chanOldA ∧
    chanOldA ≠ freshChannel 10 1 100 1000 ∧
    (seed_channel okEnv stPreSeed reqSeed).1.db.recipients
      (keyLowerA, fmtAddress 3) = some ("7", 0) := by
  refine ⟨by decide, by decide, by decide, by decide⟩

/-- C8 (amended): when the request parses and the database is up, `seed`
publishes the fresh state (sequence 0, empty signatures, zero timestamp, no
recipients) in the index under the VERBATIM request `channelId` string
(leaving every other key untouched), upserts the fresh channel row in the
store under the lowercase hex id, and leaves the durable recipient rows
exactly as they were (stale rows are not deleted); when the database is
down, seed fails before the index is touched (persist-then-publish). -/
theorem seed_channel_spec (env : Env) (st : AppState)
    (payload : SeedChannelRequest) (cid ow bal : Nat)
    (hcid : parse_b256 payload.channel_id = .ok cid)
    (how : parse_address payload.owner = .ok ow)
    (hbal : parse_u256 payload.balance = .ok bal) :
    (env.db = .ok →
      (seed_channel env st payload).2 =
        .ok (ChannelView.from_state
          (freshChannel cid ow bal payload.expiry_timestamp)) ∧
      (seed_channel env st payload).1.channels payload.channel_id =
        some (freshChannel cid ow bal payload.expiry_timestamp) ∧
      (∀ k, k ≠ payload.channel_id →
        (seed_channel env st payload).1.channels k = st.channels k) ∧
      (seed_channel env st payload).1.db.channels (fmtB256 cid) =
        some { owner := fmtAddress ow, balance := toString bal,
               expiry_ts := i64ofU64 payload.expiry_timestamp,
               sequence_number := i64ofU64 0,
               user_signature := "", sequencer_signature := "",
               signature_timestamp := i64ofU64 0 } ∧
      (seed_channel env st payload).1.db.recipients = st.db.recipients) ∧
    (∀ msg, env.db = .fail msg →
      seed_channel env st payload = (st, .error (.Database msg))) := by
  constructor
  · intro hdb
    unfold seed_channel
    simp only [hcid, how, hbal, hdb]
    refine ⟨rfl, ?_, ?_, ?_, ?_⟩
    · simp [insertChannel, freshChannel]
    · intro k hk
      simp [insertChannel, hk]
    · simp [save_channel_apply, freshChannel]
    · simp [save_channel_apply, freshChannel]
  · intro msg hdb
    unfold seed_channel
    simp only [hcid, how, hbal, hdb]

/-- C8 witness: the amended behavior at the concrete re-seed request. -/
theorem seed_channel_spec_witness :
    (seed_channel okEnv stPreSeed reqSeed).2 =
      .ok (ChannelView.from_state (freshChannel 10 1 100 1000)) ∧
    (seed_channel okEnv stPreSeed reqSeed).1.channels keyUpperA =
      some (freshChannel 10 1 100 1000) :=
  have h := seed_channel_spec okEnv stPreSeed reqSeed 10 1 100
    (by decide) (by decide) (by decide)
  ⟨(h.1 rfl).1, (h.1 rfl).2.1⟩


/-- C3 witness: a stale replay at the current sequence number with a
different signature, and a sequence gap, at concrete inputs. -/
theorem settle_sequence_number_checks_witness :
    settle okEnv stReplay { reqReplay with user_signature := "0xother" } =
      (stReplay, .error (.InvalidSequenceNumber 2 2)) ∧
    settle okEnv stReplay { reqReplay with sequence_number := 5 } =
      (stReplay, .error (.InvalidSequenceNumber 3 5)) :=
  ⟨((settle_sequence_number_checks okEnv stReplay
      { reqReplay with user_signature := "0xother" } chanReplay
      ⟨1, by decide⟩ (by decide)).1 (by decide)).2 (by decide),
   (settle_sequence_number_checks okEnv stReplay
      { reqReplay with sequence_number := 5 } chanReplay
      ⟨1, by decide⟩ (by decide)).2 (by decide) (by decide)⟩

/-- Helper: `bumpBalance` never changes an entry's address. -/
theorem bumpBalance_addr (a amt : Nat) (r : RecipientBalance) :
    (bumpBalance a amt r).recipient_address = r.recipient_address := by
  unfold bumpBalance; split <;> rfl

/-- Helper: `bumpBalance` never changes an entry's position. -/
theorem bumpBalance_pos (a amt : Nat) (r : RecipientBalance) :
    (bumpBalance a amt r).position = r.position := by
  unfold bumpBalance; split <;> rfl

/-- Helper: bumping an absent address is the identity map. -/
theorem map_bumpBalance_of_not_mem (a amt : Nat)
    (l : List RecipientBalance)
    (h : a ∉ l.map (·.recipient_address)) :
    l.map (bumpBalance a amt) = l := by
  induction l with
  | nil => rfl
  | cons hd tl ih =>
    simp only [List.map_cons, List.mem_cons, List.mem_map] at h
    push_neg at h
    have htl : a ∉ tl.map (·.recipient_address) := by
      simp only [List.mem_map]
      rintro ⟨x, hx, hxa⟩
      exact h.2 x hx hxa
    have hhd : bumpBalance a amt hd = hd := by
      unfold bumpBalance
      rw [if_neg (fun hc => h.1 hc.symm)]
    rw [List.map_cons, hhd, ih htl]

/-- Helper: `addToFirst` on an absent address finds nothing. -/
theorem addToFirst_of_not_mem (a amt : Nat) (l : List RecipientBalance)
    (h : a ∉ l.map (·.recipient_address)) :
    addToFirst a amt l = none := by
  induction l with
  | nil => rfl
  | cons hd tl ih =>
    simp only [List.map_cons, List.mem_cons] at h
    push_neg at h
    unfold addToFirst
    rw [if_neg (fun hc => h.1 hc.symm), ih h.2]

/-- Helper: on a duplicate-free list containing the address, `addToFirst`
bumps exactly the matching entry. -/
theorem addToFirst_of_mem (a amt : Nat) (l : List RecipientBalance)
    (hnd : (l.map (·.recipient_address)).Nodup)
    (hmem : a ∈ l.map (·.recipient_address)) :
    addToFirst a amt l = some (l.map (bumpBalance a amt)) := by
  induction l with
  | nil => cases hmem
  | cons hd tl ih =>
    simp only [List.map_cons, List.nodup_cons] at hnd
    unfold addToFirst
    by_cases heq : hd.recipient_address = a
    · rw [if_pos heq]
      have htl : a ∉ tl.map (·.recipient_address) := heq ▸ hnd.1
      rw [List.map_cons, map_bumpBalance_of_not_mem a amt tl htl]
      unfold bumpBalance
      rw [if_pos heq]
    · rw [if_neg heq]
      have hmem2 : a ∈ tl.map (·.recipient_address) := by
        rcases List.mem_cons.mp hmem with h1 | h1
        · exact absurd h1.symm heq
        · exact h1
      rw [ih hnd.2 hmem2, List.map_cons]
      unfold bumpBalance
      rw [if_neg heq]

/-- C5: on a recipient list satisfying I4, `add_amount` is the identity for
a zero amount; for an existing address it bumps exactly that entry's
cumulative balance (wrapping 256-bit addition, as `+=` on `U256`), leaving
length, every address and every position unchanged; for a new address and
nonzero amount it appends exactly one entry at `position = len`; in all
cases positions of pre-existing entries are unchanged and I4 is
preserved. -/
theorem add_amount_spec (rs : List RecipientBalance) (a amt : Nat)
    (h4 : I4 rs) :
    (amt = 0 → add_amount rs a amt = rs) ∧
    (amt ≠ 0 → a ∈ rs.map (·.recipient_address) →
      add_amount rs a amt = rs.map (bumpBalance a amt) ∧
      (add_amount rs a amt).length = rs.length ∧
      (add_amount rs a amt).map (·.recipient_address) =
        rs.map (·.recipient_address) ∧
      (add_amount rs a amt).map (·.position) = rs.map (·.position)) ∧
    (amt ≠ 0 → a ∉ rs.map (·.recipient_address) →
      add_amount rs a amt = rs ++
        [{ recipient_address := a, balance := amt,
           position := (rs.length : Int) }]) ∧
    ((add_amount rs a amt).map (·.position)).take rs.length =
      rs.map (·.position) ∧
    I4 (add_amount rs a amt) := by
  by_cases hz : amt = 0
  · have hid : add_amount rs a amt = rs := by unfold add_amount; rw [if_pos hz]
    refine ⟨fun _ => hid, fun hnz => absurd hz hnz, fun hnz => absurd hz hnz,
      ?_, by rw [hid]; exact h4⟩
    rw [hid, ← List.length_map rs (·.position), List.take_length]
  · refine ⟨fun h0 => absurd h0 hz, fun _ hmem => ?_, fun _ hnot => ?_, ?_, ?_⟩
    · have heq : add_amount rs a amt = rs.map (bumpBalance a amt) := by
        unfold add_amount
        rw [if_neg hz, addToFirst_of_mem a amt rs h4.1 hmem]
      have haddr : (add_amount rs a amt).map (·.recipient_address) =
          rs.map (·.recipient_address) := by
        rw [heq, List.map_map]
        exact List.map_congr_left (fun r _ => bumpBalance_addr a amt r)
      have hpos : (add_amount rs a amt).map (·.position) =
          rs.map (·.position) := by
        rw [heq, List.map_map]
        exact List.map_congr_left (fun r _ => bumpBalance_pos a amt r)
      exact ⟨heq, by rw [heq, List.length_map], haddr, hpos⟩
    · unfold add_amount
      rw [if_neg hz, addToFirst_of_not_mem a amt rs hnot]
    · by_cases hmem : a ∈ rs.map (·.recipient_address)
      · have heq : add_amount rs a amt = rs.map (bumpBalance a amt) := by
          unfold add_amount
          rw [if_neg hz, addToFirst_of_mem a amt rs h4.1 hmem]
        have hpos : (add_amount rs a amt).map (·.position) =
            rs.map (·.position) := by
          rw [heq, List.map_map]
          exact List.map_congr_left (fun r _ => bumpBalance_pos a amt r)
        rw [hpos, ← List.length_map rs (·.position), List.take_length]
      · have heq : add_amount rs a amt = rs ++
            [{ recipient_address := a, balance := amt,
               position := (rs.length : Int) }] := by
          unfold add_amount
          rw [if_neg hz, addToFirst_of_not_mem a amt rs hmem]
        rw [heq, List.map_append, ← List.length_map rs (·.position),
          List.take_left]
    · by_cases hmem : a ∈ rs.map (·.recipient_address)
      · have heq : add_amount rs a amt = rs.map (bumpBalance a amt) := by
          unfold add_amount
          rw [if_neg hz, addToFirst_of_mem a amt rs h4.1 hmem]
        have haddr : (add_amount rs a amt).map (·.recipient_address) =
            rs.map (·.recipient_address) := by
          rw [heq, List.map_map]
          exact List.map_congr_left (fun r _ => bumpBalance_addr a amt r)
        have hpos : (add_amount rs a amt).map (·.position) =
            rs.map (·.position) := by
          rw [heq, List.map_map]
          exact List.map_congr_left (fun r _ => bumpBalance_pos a amt r)
        have hlen : (add_amount rs a amt).length = rs.length := by
          rw [heq, List.length_map]
        exact ⟨haddr ▸ h4.1, by rw [hpos, hlen]; exact h4.2⟩
      · have heq : add_amount rs a amt = rs ++
            [{ recipient_address := a, balance := amt,
               position := (rs.length : Int) }] := by
          unfold add_amount
          rw [if_neg hz, addToFirst_of_not_mem a amt rs hmem]
        constructor
        · rw [heq, List.map_append]
          rw [List.nodup_append]
          refine ⟨h4.1, List.nodup_singleton a, ?_⟩
          intro x hx
          simp only [List.map_cons, List.map_nil, List.mem_singleton]
          intro hxa
          exact hmem (hxa ▸ hx)
        · rw [heq]
          have hL : (rs ++ [({ recipient_address := a, balance := amt, position := (rs.length : Int) } : RecipientBalance)]).length = rs.length + 1 := by simp
          rw [hL, List.range_succ, List.map_append, List.map_append, h4.2]
          rfl

/-- C5 witness: I4 holds of the two-entry list `rsTwo` and the conclusions
of `add_amount_spec` hold for adding 3 to existing address 2. -/
theorem add_amount_spec_witness :
    I4 rsTwo ∧
    ((0 : Nat) = 0 → add_amount rsTwo 2 0 = rsTwo) ∧
    add_amount rsTwo 2 3 = rsTwo.map (bumpBalance 2 3) :=
  ⟨by decide, (add_amount_spec rsTwo 2 0 (by decide)).1,
   ((add_amount_spec rsTwo 2 3 (by decide)).2.1 (by decide) (by decide)).1⟩


/-- Helper: the big-endian bytes of 0 are all zero. -/
theorem beBytes_zero (w : Nat) : beBytes w 0 = List.replicate w 0 := by
  induction w with
  | zero => rfl
  | succ w ih =>
    rw [beBytes, Nat.zero_div, Nat.zero_mod, ih, ← List.replicate_succ']

/-- Helper: splitting a big-endian encoding into high and low bytes. -/
theorem beBytes_add (w1 w2 n : Nat) :
    beBytes (w1 + w2) n = beBytes w1 (n / 256 ^ w2) ++ beBytes w2 n := by
  induction w2 generalizing n with
  | zero => simp [beBytes]
  | succ w2 ih =>
    rw [← Nat.add_assoc, beBytes, beBytes, ih,
      Nat.div_div_eq_div_mul, List.append_assoc]
    rw [show 256 * 256 ^ w2 = 256 ^ (w2 + 1) from (pow_succ' 256 w2).symm]

/-- Helper: a value below `2^160` encodes on 32 bytes as 12 zero bytes
followed by its 20-byte encoding. -/
theorem beBytes_address (a : Nat) (h : a < 2 ^ 160) :
    beBytes 32 a = List.replicate 12 0 ++ beBytes 20 a := by
  have h32 : (32 : Nat) = 12 + 20 := rfl
  rw [h32, beBytes_add 12 20 a]
  have hdiv : a / 256 ^ 20 = 0 := Nat.div_eq_of_lt (by norm_num at h ⊢; omega)
  rw [hdiv, beBytes_zero]

/-- Helper: folding append of encoded items equals the flattened map. -/
theorem foldl_append_flatten {α : Type} (f : α → List Nat) (l : List α)
    (acc : List Nat) :
    l.foldl (fun bytes x => bytes ++ f x) acc = acc ++ (l.map f).flatten := by
  induction l generalizing acc with
  | nil => simp
  | cons hd tl ih => simp [List.foldl_cons, ih]

/-- C2: the digest computed by `crypto.rs::channel_update_digest` is, for
every hash function `H` in place of keccak256, every channel id, sequence
number, timestamp, recipient list, chain id and (20-byte) verifying
contract, exactly the specification's
`H(0x19 ‖ 0x01 ‖ domainSeparator ‖ structHash)` formula, and for an empty
recipient list both inner hashes are `H` of the empty byte string. -/
theorem channel_update_digest_correct (H : List Nat → List Nat)
    (channel_id sequence_number timestamp : Nat)
    (recipients : List RecipientBalance) (chain_id verifying_contract : Nat)
    (hvc : verifying_contract < 2 ^ 160) :
    channel_update_digest H channel_id sequence_number timestamp recipients
      chain_id verifying_contract =
    spec_channel_update_digest H channel_id sequence_number timestamp
      recipients chain_id verifying_contract ∧
    hash_addresses H [] = H [] ∧ hash_u256s H [] = H [] := by
  refine ⟨?_, rfl, rfl⟩
  unfold channel_update_digest spec_channel_update_digest domain_separator
    hash_addresses hash_u256s pad_u256 addrPadded
  rw [foldl_append_flatten, foldl_append_flatten, beBytes_address
    verifying_contract hvc]
  simp [List.map_map, Function.comp_def]

/-- C2 witness: the digest equation instantiated at the concrete hash
`countHash` with a one-recipient list. -/
theorem channel_update_digest_correct_witness :
    (5 : Nat) < 2 ^ 160 ∧
    channel_update_digest countHash 1 2 3
      [{ recipient_address := 6, balance := 7, position := 0 }] 4 5 =
    spec_channel_update_digest countHash 1 2 3
      [{ recipient_address := 6, balance := 7, position := 0 }] 4 5 :=
  ⟨by decide,
   (channel_update_digest_correct countHash 1 2 3
     [{ recipient_address := 6, balance := 7, position := 0 }] 4 5
     (by decide)).1⟩

end Sequencer
